import Mathlib

/-
Verification development for the secure hierarchical configuration resolver
of a mobile UI test-automation framework.

Embedded components (shallow embedding of the Python sources):
  * `lib/data.py`       — DataManager: recursive secret materialization over a
    YAML tree (`_process_secrets`), test-data lookup (`get_test_data`).
  * `lib/locators.py`   — LocatorManager: lazy per-screen cache over a YAML
    locator document (`get_locator`, `get_locators`, `set_locators`) and the
    closed `LocatorType` enumeration.
  * `lib/utils/cryptography.py` — SecretManager: encrypt/decrypt wrappers over
    the external Fernet cipher and base64 transport encoding (the cipher is
    modelled from the spec, since `cryptography.fernet` and `base64` are
    third-party libraries, not part of this repository).
-/

/-- YAML values as produced by `yaml.safe_load`: mappings with string keys
(modelled as association lists in document order), sequences, and the scalar
shapes string / integer / boolean / null. -/
inductive Yaml where
  | str (s : String)
  | int (n : Int)
  | bool (b : Bool)
  | null
  | seq (xs : List Yaml)
  | map (kvs : List (String × Yaml))
deriving Repr

/-- Python exception values observable from the embedded operations.
`keyError` carries the exception message (for a bare dict miss, the key). -/
inductive PyErr where
  | keyError (msg : String)
  | fileNotFoundError (msg : String)
  | typeError
  | attributeError
deriving Repr, DecidableEq

/-- Failures of the external decryption stack: `invalidToken` is
`cryptography.fernet.InvalidToken` (authentication failure, wrong key, bogus
token bytes); `transportError` is the `binascii.Error` raised by
`base64.b64decode` on malformed transport encoding. Neither constructor
carries any location information: these exceptions identify no document path. -/
inductive CryptoErr where
  | invalidToken
  | transportError
deriving Repr, DecidableEq

/-- Python `s.startswith(pre)` on code points. -/
def pyStartsWith (s pre : String) : Bool := pre.data.isPrefixOf s.data

/-- Python `s.upper()` (the strategy names in play are ASCII). -/
def pyUpper (s : String) : String := String.mk (s.data.map Char.toUpper)

/-- Python slice `s[4:-1]`: the code points from index 4 up to, but not
including, the last one. Equal to dropping the first four characters and then
the final character, whatever that final character is. -/
def encPayload (s : String) : String := String.mk ((s.data.drop 4).dropLast)

/-- Python dict lookup (`d[k]` hit test, `k in d`, `d.get(k)`) on an
association list: first binding wins (keys are unique in a parsed document). -/
def dictGet (k : String) : List (String × Yaml) → Option Yaml
  | [] => none
  | (k', v) :: rest => if k' = k then some v else dictGet k rest

/-- Python dict assignment `d[k] = v`: replaces the binding for `k` if present,
otherwise appends it. -/
def dictSet (k : String) (v : Yaml) : List (String × Yaml) → List (String × Yaml)
  | [] => [(k, v)]
  | (k', v') :: rest => if k' = k then (k, v) :: rest else (k', v') :: dictSet k v rest

/-- Python subscript `obj[k]` with a string key: a dict yields the value or
raises `KeyError(k)`; every other shape the documents in question can hold at
a subscripted level (scalars, lists, `None`) raises `TypeError`. -/
def yamlIndex (y : Yaml) (k : String) : Except PyErr Yaml :=
  match y with
  | .map kvs =>
    match dictGet k kvs with
    | some v => Except.ok v
    | none => Except.error (PyErr.keyError k)
  | _ => Except.error PyErr.typeError

mutual

/-- Embedding of `DataManager._process_secrets` (`lib/data.py`), parameterized
by the string-level decrypt function `d` of the bound secret manager (in the source,
`self.secret_manager.decrypt`, whose exceptions propagate uncaught). A dict is
rebuilt value by value, a list element by element, and a string satisfying
`data.startswith("ENC[")` is replaced by `d` applied to `data[4:-1]`; all
other scalars pass through unchanged. -/
def processSecrets (d : String → Except CryptoErr String) : Yaml → Except CryptoErr Yaml
  | .map kvs =>
    match processSecretsMap d kvs with
    | .ok kvs' => .ok (.map kvs')
    | .error e => .error e
  | .seq xs =>
    match processSecretsList d xs with
    | .ok xs' => .ok (.seq xs')
    | .error e => .error e
  | .str s =>
    if pyStartsWith s "ENC[" then
      match d (encPayload s) with
      | .ok p => .ok (.str p)
      | .error e => .error e
    else .ok (.str s)
  | .int n => .ok (.int n)
  | .bool b => .ok (.bool b)
  | .null => .ok .null

/-- The list comprehension `[self._process_secrets(item) for item in data]`:
elements processed in order, the first exception propagating. -/
def processSecretsList (d : String → Except CryptoErr String) : List Yaml → Except CryptoErr (List Yaml)
  | [] => .ok []
  | x :: xs =>
    match processSecrets d x with
    | .error e => .error e
    | .ok x' =>
      match processSecretsList d xs with
      | .error e => .error e
      | .ok xs' => .ok (x' :: xs')

/-- The dict comprehension `{key: self._process_secrets(value) for ...}`:
entries processed in document order, keys unchanged, the first exception
propagating. -/
def processSecretsMap (d : String → Except CryptoErr String) : List (String × Yaml) → Except CryptoErr (List (String × Yaml))
  | [] => .ok []
  | (k, v) :: kvs =>
    match processSecrets d v with
    | .error e => .error e
    | .ok v' =>
      match processSecretsMap d kvs with
      | .error e => .error e
      | .ok kvs' => .ok ((k, v') :: kvs')

end

/-- Embedding of `DataManager.get_test_data`: `self._data.get(test_name, {})`.
On the mapping produced by `_load_data` this returns the named subtree or the
empty mapping; on a non-mapping `_data` it raises `AttributeError` (no `.get`). -/
def getTestData (dat : Yaml) (name : String) : Except PyErr Yaml :=
  match dat with
  | .map kvs => Except.ok ((dictGet name kvs).getD (.map []))
  | _ => Except.error PyErr.attributeError

/-- The closed `LocatorType` enumeration of `lib/locators.py`: one member per
supported lookup strategy, named exactly as in the Python `Enum`. -/
inductive LocatorType where
  | ID
  | NAME
  | CLASS_NAME
  | TAG_NAME
  | XPATH
  | CSS_SELECTOR
  | LINK_TEXT
  | PARTIAL_LINK_TEXT
  | ACCESSIBILITY_ID
  | IMAGE
  | ANDROID_DATA_MATCHER
  | ANDROID_UIAUTOMATOR
  | ANDROID_VIEWTAG
  | IOS_CLASS_CHAIN
  | IOS_PREDICATE
  | CUSTOM
deriving Repr, DecidableEq

/-- The `.value` of each member: the `AppiumBy` locator-strategy string it wraps. -/
def LocatorType.value : LocatorType → String
  | .ID => "id"
  | .NAME => "name"
  | .CLASS_NAME => "class name"
  | .TAG_NAME => "tag name"
  | .XPATH => "xpath"
  | .CSS_SELECTOR => "css selector"
  | .LINK_TEXT => "link text"
  | .PARTIAL_LINK_TEXT => "partial link text"
  | .ACCESSIBILITY_ID => "accessibility id"
  | .IMAGE => "-image"
  | .ANDROID_DATA_MATCHER => "-android datamatcher"
  | .ANDROID_UIAUTOMATOR => "-android uiautomator"
  | .ANDROID_VIEWTAG => "-android viewtag"
  | .IOS_CLASS_CHAIN => "-ios class chain"
  | .IOS_PREDICATE => "-ios predicate string"
  | .CUSTOM => "-custom"

/-- Python `LocatorType[name]`: lookup by member name, `none` standing for the
`KeyError` an unknown name raises. -/
def LocatorType.ofName : String → Option LocatorType
  | "ID" => some .ID
  | "NAME" => some .NAME
  | "CLASS_NAME" => some .CLASS_NAME
  | "TAG_NAME" => some .TAG_NAME
  | "XPATH" => some .XPATH
  | "CSS_SELECTOR" => some .CSS_SELECTOR
  | "LINK_TEXT" => some .LINK_TEXT
  | "PARTIAL_LINK_TEXT" => some .PARTIAL_LINK_TEXT
  | "ACCESSIBILITY_ID" => some .ACCESSIBILITY_ID
  | "IMAGE" => some .IMAGE
  | "ANDROID_DATA_MATCHER" => some .ANDROID_DATA_MATCHER
  | "ANDROID_UIAUTOMATOR" => some .ANDROID_UIAUTOMATOR
  | "ANDROID_VIEWTAG" => some .ANDROID_VIEWTAG
  | "IOS_CLASS_CHAIN" => some .IOS_CLASS_CHAIN
  | "IOS_PREDICATE" => some .IOS_PREDICATE
  | "CUSTOM" => some .CUSTOM
  | _ => none

/-- State of a `LocatorManager` (`lib/locators.py`). `doc` is the outcome of
`self._load_locators()` for the bound platform — reading the same file is
deterministic, so one `Except` value stands for every call: `Except.error` for
a missing locators file (`FileNotFoundError`), `Except.ok` for the parsed
document. `cache` is `self._locators_cache`. The `platform` and file-path
fields of the Python object only select which file backs `doc`. -/
structure LocatorManager where
  doc : Except PyErr Yaml
  cache : List (String × Yaml)

/-- The `KeyError` message raised by the `except KeyError` clause of
`get_locator`: Element {element} not found in screen {screen}, with both names
single-quoted. -/
def elementNotFound (elt screen : String) : PyErr :=
  PyErr.keyError ("Element \x27" ++ elt ++ "\x27 not found in screen \x27" ++ screen ++ "\x27")

/-- The `KeyError` message raised by `get_locators` for a screen missing from
the loaded document: Screen {screen} not found in locators, single-quoted. -/
def screenNotFound (screen : String) : PyErr :=
  PyErr.keyError ("Screen \x27" ++ screen ++ "\x27 not found in locators")

/-- The `try` body of `get_locator`: `locator_data = cached[element]`, then
`(LocatorType[locator_data["type"].upper()].value, locator_data["value"])`,
evaluated left to right. A non-string `type` value has no `.upper()`
(`AttributeError`); an unknown member name raises `KeyError` from
`LocatorType[...]`. -/
def locatorBody (cached : Yaml) (elt : String) : Except PyErr (String × Yaml) :=
  match yamlIndex cached elt with
  | .error e => .error e
  | .ok ld =>
    match yamlIndex ld "type" with
    | .error e => .error e
    | .ok tv =>
      match tv with
      | .str tname =>
        match LocatorType.ofName (pyUpper tname) with
        | none => .error (PyErr.keyError (pyUpper tname))
        | some lt =>
          match yamlIndex ld "value" with
          | .error e => .error e
          | .ok v => .ok (lt.value, v)
      | _ => .error PyErr.attributeError

/-- The `except KeyError` handler of `get_locator`: any `KeyError` escaping the
`try` body — element miss, `type`/`value` miss, or unknown strategy name — is
replaced by the one element-not-found `KeyError`; other exceptions pass. -/
def wrapElementKeyErr (screen elt : String) : Except PyErr (String × Yaml) → Except PyErr (String × Yaml)
  | .error (PyErr.keyError _) => .error (elementNotFound elt screen)
  | r => r

/-- Embedding of `LocatorManager.get_locator`. On a cache miss it first runs
`self._locators_cache[screen] = self._load_locators()` — storing the whole
document-level parse under the screen key (a failed load leaves the cache
untouched, since the exception fires before the assignment) — then resolves
`element` directly inside `self._locators_cache[screen]` via the `try` body.
Returns the outcome of the Python call paired with the post-call manager state. -/
def getLocator (m : LocatorManager) (screen elt : String) :
    Except PyErr (String × Yaml) × LocatorManager :=
  match dictGet screen m.cache with
  | some cached => (wrapElementKeyErr screen elt (locatorBody cached elt), m)
  | none =>
    match m.doc with
    | .error e => (.error e, m)
    | .ok d =>
      (wrapElementKeyErr screen elt (locatorBody d elt),
       { m with cache := dictSet screen d m.cache })

/-- Embedding of `LocatorManager.get_locators`. On a cache miss it loads the
document, raises the screen-not-found `KeyError` if `screen` is absent from it
(leaving the cache untouched), and otherwise caches and returns the sub-mapping
of that screen alone; a cache hit returns the cached value as is. A non-mapping
document makes `screen not in locators` raise `TypeError`. -/
def getLocators (m : LocatorManager) (screen : String) : Except PyErr Yaml × LocatorManager :=
  match dictGet screen m.cache with
  | some v => (.ok v, m)
  | none =>
    match m.doc with
    | .error e => (.error e, m)
    | .ok d =>
      match d with
      | .map kvs =>
        match dictGet screen kvs with
        | some sv => (.ok sv, { m with cache := dictSet screen sv m.cache })
        | none => (.error (screenNotFound screen), m)
      | _ => (.error PyErr.typeError, m)

/-- Embedding of `LocatorManager.set_locators`: seed or overwrite the cache
entry for a screen directly. -/
def setLocators (m : LocatorManager) (screen : String) (locs : Yaml) : LocatorManager :=
  { m with cache := dictSet screen locs m.cache }

/-- Modelled from the spec: the ciphertexts handled by `SecretManager`
(`lib/utils/cryptography.py`). The cipher itself is the external
`cryptography.fernet.Fernet` (authenticated symmetric encryption) composed
with `base64` transport encoding, neither of which is source of this
repository; the spec describes the scheme as authenticated encryption whose
tokens bind one key and a per-call random IV/timestamp (`nonce` here).
`token` is the transport encoding of an authentic Fernet token under `key`;
`junk` decodes as base64 but is no authentic token under any key;
`badTransport` fails base64 decoding itself. -/
inductive Ciphertext where
  | token (key : String) (nonce : Nat) (plaintext : String)
  | junk (raw : String)
  | badTransport (raw : String)
deriving Repr, DecidableEq

/-- Modelled from the spec: `SecretManager.encrypt` — Fernet-encrypt the
plaintext under the bound key with a fresh IV/timestamp (`nonce`), then
base64-encode the token for transport. -/
def SecretManager.encrypt (key : String) (nonce : Nat) (data : String) : Ciphertext :=
  Ciphertext.token key nonce data

/-- Modelled from the spec: `SecretManager.decrypt` — base64-decode
(`binascii.Error` on malformed transport encoding), then Fernet-decrypt under
the bound key (`InvalidToken` on an authentication failure: a token under a
different key, or bytes that are no authentic token at all). -/
def SecretManager.decrypt (key : String) : Ciphertext → Except CryptoErr String
  | .token k _ p => if k = key then Except.ok p else Except.error CryptoErr.invalidToken
  | .junk _ => Except.error CryptoErr.invalidToken
  | .badTransport _ => Except.error CryptoErr.transportError

mutual

/-- A tree contains a string leaf carrying the `ENC[` marker. -/
def hasEncMarker : Yaml → Bool
  | .str s => pyStartsWith s "ENC["
  | .seq xs => hasEncMarkerList xs
  | .map kvs => hasEncMarkerMap kvs
  | _ => false

def hasEncMarkerList : List Yaml → Bool
  | [] => false
  | x :: xs => hasEncMarker x || hasEncMarkerList xs

def hasEncMarkerMap : List (String × Yaml) → Bool
  | [] => false
  | (_, v) :: kvs => hasEncMarker v || hasEncMarkerMap kvs

end

mutual

/-- A tree contains a marked string leaf whose payload `d` fails to decrypt. -/
def hasFailingSecret (d : String → Except CryptoErr String) : Yaml → Bool
  | .str s =>
    pyStartsWith s "ENC[" &&
      (match d (encPayload s) with
       | .error _ => true
       | .ok _ => false)
  | .seq xs => hasFailingSecretList d xs
  | .map kvs => hasFailingSecretMap d kvs
  | _ => false

def hasFailingSecretList (d : String → Except CryptoErr String) : List Yaml → Bool
  | [] => false
  | x :: xs => hasFailingSecret d x || hasFailingSecretList d xs

def hasFailingSecretMap (d : String → Except CryptoErr String) : List (String × Yaml) → Bool
  | [] => false
  | (_, v) :: kvs => hasFailingSecret d v || hasFailingSecretMap d kvs

end

mutual

/-- Shape agreement between an input tree and its materialization: mappings
keep the same keys in the same order, sequences the same length and order,
unmarked leaves are unchanged, and a marked string leaf may turn into any
string leaf. -/
def matchesUpToSecrets : Yaml → Yaml → Bool
  | .str s, .str s' => if pyStartsWith s "ENC[" then true else s == s'
  | .str _, _ => false
  | .int n, .int n' => n == n'
  | .int _, _ => false
  | .bool b, .bool b' => b == b'
  | .bool _, _ => false
  | .null, .null => true
  | .null, _ => false
  | .seq xs, .seq xs' => matchesListUpToSecrets xs xs'
  | .seq _, _ => false
  | .map kvs, .map kvs' => matchesMapUpToSecrets kvs kvs'
  | .map _, _ => false

def matchesListUpToSecrets : List Yaml → List Yaml → Bool
  | [], [] => true
  | x :: xs, x' :: xs' => matchesUpToSecrets x x' && matchesListUpToSecrets xs xs'
  | _, _ => false

def matchesMapUpToSecrets : List (String × Yaml) → List (String × Yaml) → Bool
  | [], [] => true
  | (k, v) :: kvs, (k', v') :: kvs' =>
    k == k' && matchesUpToSecrets v v' && matchesMapUpToSecrets kvs kvs'
  | _, _ => false

end

/-- Assigning and then reading back the same key in a Python dict yields the
assigned value. -/
theorem dictGet_dictSet_self (k : String) (v : Yaml) (l : List (String × Yaml)) :
    dictGet k (dictSet k v l) = some v := by
  induction l with
  | nil => simp [dictGet, dictSet]
  | cons hd tl ih =>
    obtain ⟨k', v'⟩ := hd
    by_cases h : k' = k
    · simp [dictSet, h, dictGet]
    · simp [dictSet, h, dictGet, ih]

mutual

/-- A tree holding a marked leaf whose payload fails to decrypt makes
`_process_secrets` raise. -/
def hasFailingSecret_errors (d : String → Except CryptoErr String) :
    ∀ (t : Yaml), hasFailingSecret d t = true → ∃ e, processSecrets d t = .error e
  | .str s, h => by
    unfold hasFailingSecret at h
    rw [Bool.and_eq_true] at h
    obtain ⟨h1, h2⟩ := h
    unfold processSecrets
    rw [if_pos h1]
    cases hd : d (encPayload s) with
    | ok p => rw [hd] at h2; simp at h2
    | error e => exact ⟨e, rfl⟩
  | .seq xs, h => by
    unfold hasFailingSecret at h
    obtain ⟨e, he⟩ := hasFailingSecretList_errors d xs h
    unfold processSecrets
    rw [he]
    exact ⟨e, rfl⟩
  | .map kvs, h => by
    unfold hasFailingSecret at h
    obtain ⟨e, he⟩ := hasFailingSecretMap_errors d kvs h
    unfold processSecrets
    rw [he]
    exact ⟨e, rfl⟩
  | .int _, h => by simp [hasFailingSecret] at h
  | .bool _, h => by simp [hasFailingSecret] at h
  | .null, h => by simp [hasFailingSecret] at h

/-- List version of `hasFailingSecret_errors`. -/
def hasFailingSecretList_errors (d : String → Except CryptoErr String) :
    ∀ (xs : List Yaml), hasFailingSecretList d xs = true → ∃ e, processSecretsList d xs = .error e
  | [], h => by simp [hasFailingSecretList] at h
  | x :: xs, h => by
    unfold hasFailingSecretList at h
    rw [Bool.or_eq_true] at h
    unfold processSecretsList
    cases hx : processSecrets d x with
    | error e => exact ⟨e, rfl⟩
    | ok x' =>
      cases h with
      | inl h1 =>
        obtain ⟨e, he⟩ := hasFailingSecret_errors d x h1
        rw [hx] at he
        exact absurd he (by simp)
      | inr h2 =>
        obtain ⟨e, he⟩ := hasFailingSecretList_errors d xs h2
        rw [he]
        exact ⟨e, rfl⟩

/-- Mapping version of `hasFailingSecret_errors`. -/
def hasFailingSecretMap_errors (d : String → Except CryptoErr String) :
    ∀ (kvs : List (String × Yaml)), hasFailingSecretMap d kvs = true →
      ∃ e, processSecretsMap d kvs = .error e
  | [], h => by simp [hasFailingSecretMap] at h
  | (k, v) :: kvs, h => by
    unfold hasFailingSecretMap at h
    rw [Bool.or_eq_true] at h
    unfold processSecretsMap
    cases hv : processSecrets d v with
    | error e => exact ⟨e, rfl⟩
    | ok v' =>
      cases h with
      | inl h1 =>
        obtain ⟨e, he⟩ := hasFailingSecret_errors d v h1
        rw [hv] at he
        exact absurd he (by simp)
      | inr h2 =>
        obtain ⟨e, he⟩ := hasFailingSecretMap_errors d kvs h2
        rw [he]
        exact ⟨e, rfl⟩

end

mutual

/-- A successful `_process_secrets` run only rewrites marked string leaves:
the output agrees with the input everywhere else. -/
def processSecrets_matches (d : String → Except CryptoErr String) :
    ∀ (t t' : Yaml), processSecrets d t = .ok t' → matchesUpToSecrets t t' = true
  | .str s, t', h => by
    unfold processSecrets at h
    by_cases hs : pyStartsWith s "ENC[" = true
    · rw [if_pos hs] at h
      cases hd : d (encPayload s) with
      | ok p =>
        rw [hd] at h
        have h' : Except.ok (Yaml.str p) = Except.ok t' := h
        injection h' with h''
        subst h''
        unfold matchesUpToSecrets
        rw [if_pos hs]
      | error e =>
        rw [hd] at h
        exact Except.noConfusion (show (Except.error e : Except CryptoErr Yaml) = Except.ok t' from h)
    · rw [if_neg hs] at h
      have h' : Except.ok (Yaml.str s) = Except.ok t' := h
      injection h' with h''
      subst h''
      unfold matchesUpToSecrets
      rw [if_neg hs]
      simp
  | .seq xs, t', h => by
    unfold processSecrets at h
    cases hm : processSecretsList d xs with
    | error e =>
      rw [hm] at h
      exact Except.noConfusion (show (Except.error e : Except CryptoErr Yaml) = Except.ok t' from h)
    | ok xs' =>
      rw [hm] at h
      have h' : Except.ok (Yaml.seq xs') = Except.ok t' := h
      injection h' with h''
      subst h''
      unfold matchesUpToSecrets
      exact processSecretsList_matches d xs xs' hm
  | .map kvs, t', h => by
    unfold processSecrets at h
    cases hm : processSecretsMap d kvs with
    | error e =>
      rw [hm] at h
      exact Except.noConfusion (show (Except.error e : Except CryptoErr Yaml) = Except.ok t' from h)
    | ok kvs' =>
      rw [hm] at h
      have h' : Except.ok (Yaml.map kvs') = Except.ok t' := h
      injection h' with h''
      subst h''
      unfold matchesUpToSecrets
      exact processSecretsMap_matches d kvs kvs' hm
  | .int n, t', h => by
    unfold processSecrets at h
    have h' : Except.ok (Yaml.int n) = Except.ok t' := h
    injection h' with h''
    subst h''
    simp [matchesUpToSecrets]
  | .bool b, t', h => by
    unfold processSecrets at h
    have h' : Except.ok (Yaml.bool b) = Except.ok t' := h
    injection h' with h''
    subst h''
    simp [matchesUpToSecrets]
  | .null, t', h => by
    unfold processSecrets at h
    have h' : Except.ok Yaml.null = Except.ok t' := h
    injection h' with h''
    subst h''
    simp [matchesUpToSecrets]

/-- List version of `processSecrets_matches`. -/
def processSecretsList_matches (d : String → Except CryptoErr String) :
    ∀ (xs xs' : List Yaml), processSecretsList d xs = .ok xs' → matchesListUpToSecrets xs xs' = true
  | [], xs', h => by
    unfold processSecretsList at h
    have h' : Except.ok ([] : List Yaml) = Except.ok xs' := h
    injection h' with h''
    subst h''
    simp [matchesListUpToSecrets]
  | x :: xs, xs', h => by
    unfold processSecretsList at h
    cases hx : processSecrets d x with
    | error e =>
      rw [hx] at h
      exact Except.noConfusion (show (Except.error e : Except CryptoErr (List Yaml)) = Except.ok xs' from h)
    | ok x' =>
      rw [hx] at h
      cases hxs : processSecretsList d xs with
      | error e =>
        rw [hxs] at h
        exact Except.noConfusion (show (Except.error e : Except CryptoErr (List Yaml)) = Except.ok xs' from h)
      | ok xs₀ =>
        rw [hxs] at h
        have h' : Except.ok (x' :: xs₀) = Except.ok xs' := h
        injection h' with h''
        subst h''
        unfold matchesListUpToSecrets
        rw [Bool.and_eq_true]
        exact ⟨processSecrets_matches d x x' hx, processSecretsList_matches d xs xs₀ hxs⟩

/-- Mapping version of `processSecrets_matches`: keys survive unchanged and in
order. -/
def processSecretsMap_matches (d : String → Except CryptoErr String) :
    ∀ (kvs kvs' : List (String × Yaml)), processSecretsMap d kvs = .ok kvs' →
      matchesMapUpToSecrets kvs kvs' = true
  | [], kvs', h => by
    unfold processSecretsMap at h
    have h' : Except.ok ([] : List (String × Yaml)) = Except.ok kvs' := h
    injection h' with h''
    subst h''
    simp [matchesMapUpToSecrets]
  | (k, v) :: kvs, kvs', h => by
    unfold processSecretsMap at h
    cases hv : processSecrets d v with
    | error e =>
      rw [hv] at h
      exact Except.noConfusion
        (show (Except.error e : Except CryptoErr (List (String × Yaml))) = Except.ok kvs' from h)
    | ok v' =>
      rw [hv] at h
      cases hks : processSecretsMap d kvs with
      | error e =>
        rw [hks] at h
        exact Except.noConfusion
          (show (Except.error e : Except CryptoErr (List (String × Yaml))) = Except.ok kvs' from h)
      | ok kvs₀ =>
        rw [hks] at h
        have h' : Except.ok ((k, v') :: kvs₀) = Except.ok kvs' := h
        injection h' with h''
        subst h''
        unfold matchesMapUpToSecrets
        rw [Bool.and_eq_true, Bool.and_eq_true]
        exact ⟨⟨beq_self_eq_true k, processSecrets_matches d v v' hv⟩,
          processSecretsMap_matches d kvs kvs₀ hks⟩

end

mutual

/-- On a tree without any `ENC[` marker, `_process_secrets` is the identity. -/
def processSecrets_id (d : String → Except CryptoErr String) :
    ∀ (t : Yaml), hasEncMarker t = false → processSecrets d t = .ok t
  | .str s, h => by
    unfold hasEncMarker at h
    unfold processSecrets
    rw [if_neg (by simp [h])]
  | .seq xs, h => by
    unfold hasEncMarker at h
    unfold processSecrets
    rw [processSecretsList_id d xs h]
  | .map kvs, h => by
    unfold hasEncMarker at h
    unfold processSecrets
    rw [processSecretsMap_id d kvs h]
  | .int n, _ => by simp [processSecrets]
  | .bool b, _ => by simp [processSecrets]
  | .null, _ => by simp [processSecrets]

/-- List version of `processSecrets_id`. -/
def processSecretsList_id (d : String → Except CryptoErr String) :
    ∀ (xs : List Yaml), hasEncMarkerList xs = false → processSecretsList d xs = .ok xs
  | [], _ => by simp [processSecretsList]
  | x :: xs, h => by
    unfold hasEncMarkerList at h
    rw [Bool.or_eq_false_iff] at h
    obtain ⟨h1, h2⟩ := h
    unfold processSecretsList
    rw [processSecrets_id d x h1, processSecretsList_id d xs h2]

/-- Mapping version of `processSecrets_id`. -/
def processSecretsMap_id (d : String → Except CryptoErr String) :
    ∀ (kvs : List (String × Yaml)), hasEncMarkerMap kvs = false → processSecretsMap d kvs = .ok kvs
  | [], _ => by simp [processSecretsMap]
  | (k, v) :: kvs, h => by
    unfold hasEncMarkerMap at h
    rw [Bool.or_eq_false_iff] at h
    obtain ⟨h1, h2⟩ := h
    unfold processSecretsMap
    rw [processSecrets_id d v h1, processSecretsMap_id d kvs h2]

end

/-- The document of the worked example in the spec: screen `login_screen`
holding element `username` with strategy `id` and target `username_field`. -/
def docA : Yaml :=
  Yaml.map [("login_screen", Yaml.map [("username",
    Yaml.map [("type", Yaml.str "id"), ("value", Yaml.str "username_field")])])]

/-- C1: the claim says `get_locator` on an uncached screen loads the document,
resolves the screen and then the element inside it, and on the worked example
returns the pair (id, username_field). The code instead looks the element up
at the top level of the cached document, so the example call fails with the
element-not-found `KeyError` — evaluated here on exactly the document of the
claim, with an empty cache. -/
theorem c1_spec_example_fails :
    (getLocator ⟨Except.ok docA, []⟩ "login_screen" "username").1 =
      Except.error (elementNotFound "username" "login_screen") := rfl

/-- C2: the claim says a failed `get_entry` leaves the ScreenCache exactly as
before. On an empty cache, `get_locator` for a missing element fails — yet
leaves the whole parsed document cached under the screen key, a wrong-shaped
entry that is neither "the whole screen cached" nor "nothing cached". -/
theorem c2_failed_get_locator_mutates_cache :
    (getLocator ⟨Except.ok docA, []⟩ "login_screen" "missing").1 =
      Except.error (elementNotFound "missing" "login_screen") ∧
    ((getLocator ⟨Except.ok docA, []⟩ "login_screen" "missing").2).cache =
      [("login_screen", docA)] :=
  ⟨rfl, rfl⟩

/-- C3 (amended): for a cached screen holding one element, an entry whose
uppercased strategy name is no `LocatorType` member makes `get_locator` fail —
never silently defaulting, and leaving the manager unchanged — but with the
same element-not-found `KeyError` a missing element produces, because the
`KeyError` from `LocatorType[...]` is swallowed by the same handler; any case
variant of a valid member name succeeds with that member. -/
theorem c3_unknown_strategy_amended (m : LocatorManager) (s e tname : String) (v : Yaml)
    (hc : dictGet s m.cache =
      some (Yaml.map [(e, Yaml.map [("type", Yaml.str tname), ("value", v)])])) :
    (LocatorType.ofName (pyUpper tname) = none →
      (getLocator m s e).1 = Except.error (elementNotFound e s) ∧ (getLocator m s e).2 = m) ∧
    (∀ lt, LocatorType.ofName (pyUpper tname) = some lt →
      (getLocator m s e).1 = Except.ok (lt.value, v)) := by
  refine ⟨fun hn => ?_, fun lt hlt => ?_⟩
  · constructor <;> simp [getLocator, hc, locatorBody, yamlIndex, dictGet, hn, wrapElementKeyErr]
  · simp [getLocator, hc, locatorBody, yamlIndex, dictGet, hlt, wrapElementKeyErr]

/-- A manager whose cached screen `s` holds element `e` with the unknown
strategy name `bogus`. -/
def mgrBogus : LocatorManager :=
  ⟨Except.error (PyErr.fileNotFoundError "f"),
   [("s", Yaml.map [("e", Yaml.map [("type", Yaml.str "bogus"), ("value", Yaml.str "v")])])]⟩

/-- A manager whose cached screen `s` holds element `e` with the mixed-case
valid strategy name `iD`. -/
def mgrCased : LocatorManager :=
  ⟨Except.error (PyErr.fileNotFoundError "f"),
   [("s", Yaml.map [("e", Yaml.map [("type", Yaml.str "iD"), ("value", Yaml.str "v")])])]⟩

/-- A manager whose cached screen `s` holds no elements at all. -/
def mgrMissingElt : LocatorManager :=
  ⟨Except.error (PyErr.fileNotFoundError "f"), [("s", Yaml.map [])]⟩

/-- C3 witness: the amended claim instantiated — strategy `bogus` fails with
the element-not-found error, strategy name `iD` resolves to the `ID` member. -/
theorem c3_unknown_strategy_amended_witness :
    (getLocator mgrBogus "s" "e").1 = Except.error (elementNotFound "e" "s") ∧
    (getLocator mgrCased "s" "e").1 = Except.ok (LocatorType.ID.value, Yaml.str "v") :=
  ⟨((c3_unknown_strategy_amended mgrBogus "s" "e" "bogus" (Yaml.str "v") rfl).1 rfl).1,
   (c3_unknown_strategy_amended mgrCased "s" "e" "iD" (Yaml.str "v") rfl).2 LocatorType.ID rfl⟩

/-- C3 counterexample: the claim calls the unknown-strategy failure "a failure
distinct from the missing-screen/missing-element LocatorNotFound failure". At
these concrete inputs the error raised for strategy `bogus` on element `e` is
literally the same value as the error raised when `e` is absent from the
screen: both are the one element-not-found `KeyError`. -/
theorem c3_error_not_distinct :
    (getLocator mgrBogus "s" "e").1 = (getLocator mgrMissingElt "s" "e").1 ∧
    (getLocator mgrBogus "s" "e").1 = Except.error (elementNotFound "e" "s") := ⟨rfl, rfl⟩

/-- A decrypt function that rejects every payload, as Fernet does when the
bound key cannot authenticate any of them. -/
def dFail : String → Except CryptoErr String := fun _ => Except.error CryptoErr.invalidToken

/-- C4 (amended): a tree containing any marked leaf whose payload fails to
decrypt makes `_process_secrets` — run eagerly inside `DataManager.__init__` —
raise, so the manager is never constructed with a partially resolved tree; the
propagated error is the raw decryption exception, which carries no path. -/
theorem c4_failing_secret_aborts (d : String → Except CryptoErr String) (t : Yaml)
    (h : hasFailingSecret d t = true) :
    ∃ e, processSecrets d t = Except.error e :=
  hasFailingSecret_errors d t h

/-- C4 witness: a one-entry mapping whose value is a failing secret aborts
materialization. -/
theorem c4_failing_secret_aborts_witness :
    hasFailingSecret dFail (Yaml.map [("a", Yaml.str "ENC[x]")]) = true ∧
    ∃ e, processSecrets dFail (Yaml.map [("a", Yaml.str "ENC[x]")]) = Except.error e :=
  ⟨by simp [hasFailingSecret, hasFailingSecretMap, pyStartsWith, dFail],
   c4_failing_secret_aborts dFail _
     (by simp [hasFailingSecret, hasFailingSecretMap, pyStartsWith, dFail])⟩

/-- C4 counterexample: the claim says the failure identifies the path
(mapping-key / sequence-index chain) of the failing leaf. Two documents whose
failing leaves sit at different paths — under mapping key `a`, and at sequence
index 1 — produce the identical pathless `InvalidToken` error, so the failure
identifies no path. -/
theorem c4_error_lacks_path :
    processSecrets dFail (Yaml.map [("a", Yaml.str "ENC[x]")]) =
      processSecrets dFail (Yaml.seq [Yaml.str "plain", Yaml.str "ENC[y]"]) ∧
    processSecrets dFail (Yaml.map [("a", Yaml.str "ENC[x]")]) =
      Except.error CryptoErr.invalidToken := by
  constructor <;>
    simp [processSecrets, processSecretsMap, processSecretsList, pyStartsWith, dFail]

/-- C5: a successful materialization preserves the shape of the tree exactly —
mappings keep all keys in order with unmarked values unchanged, sequences keep
length and order with unmarked elements unchanged, and only string leaves
carrying the `ENC[` marker change value; a tree with no markers materializes
to a tree equal to the input. -/
theorem c5_materialize_preserves_shape (d : String → Except CryptoErr String) (t t' : Yaml)
    (h : processSecrets d t = Except.ok t') :
    matchesUpToSecrets t t' = true ∧ (hasEncMarker t = false → t' = t) := by
  refine ⟨processSecrets_matches d t t' h, fun hm => ?_⟩
  have h2 := processSecrets_id d t hm
  rw [h] at h2
  exact Except.ok.inj h2

/-- A decrypt function that accepts every payload and returns it unchanged. -/
def dId : String → Except CryptoErr String := fun p => Except.ok p

/-- The selectivity example of the spec: three marked leaves among plain ones. -/
def tSel : Yaml := Yaml.map [
  ("plain", Yaml.str "text"),
  ("secret", Yaml.str "ENC[p1]"),
  ("nested", Yaml.map [("secret", Yaml.str "ENC[p2]")]),
  ("list", Yaml.seq [Yaml.str "plain", Yaml.str "ENC[p3]"])]

/-- What `tSel` materializes to under `dId`: only the marked leaves changed. -/
def tSelOut : Yaml := Yaml.map [
  ("plain", Yaml.str "text"),
  ("secret", Yaml.str "p1"),
  ("nested", Yaml.map [("secret", Yaml.str "p2")]),
  ("list", Yaml.seq [Yaml.str "plain", Yaml.str "p3"])]

/-- C5 witness: shape preservation instantiated on the selectivity example of
the spec. -/
theorem c5_materialize_preserves_shape_witness :
    matchesUpToSecrets tSel tSelOut = true :=
  (c5_materialize_preserves_shape dId tSel tSelOut
    (by simp [processSecrets, processSecretsMap, processSecretsList, pyStartsWith, dId,
          tSel, tSelOut]; decide)).1

/-- C6: decrypting an encryption made under the same key returns the original
plaintext, for every plaintext string and every IV/timestamp draw. -/
theorem c6_decrypt_encrypt_roundtrip (key : String) (nonce : Nat) (s : String) :
    SecretManager.decrypt key (SecretManager.encrypt key nonce s) = Except.ok s := by
  simp [SecretManager.encrypt, SecretManager.decrypt]

/-- A document where the name of screen `s` doubles as a top-level key shaped
like an entry, and screen `t` holds the single element `u`. -/
def docB : Yaml := Yaml.map [
  ("s", Yaml.map [("type", Yaml.str "id"), ("value", Yaml.str "v")]),
  ("t", Yaml.map [("u", Yaml.map [("type", Yaml.str "id"), ("value", Yaml.str "w")])])]

/-- C7: the claim says every element absent from an existing screen makes
`get_locator` fail with the element-not-found error. Here `s` is not an
element of screen `t` (whose only element is `u`) — yet on a cold cache
`get_locator("t", "s")` succeeds, returning the top-level entry `s` of the
document, because the element is resolved against the document instead of the
screen. -/
theorem c7_foreign_element_succeeds :
    (getLocator ⟨Except.ok docB, []⟩ "t" "s").1 = Except.ok ("id", Yaml.str "v") ∧
    dictGet "s" [("u", Yaml.map [("type", Yaml.str "id"), ("value", Yaml.str "w")])] = none :=
  ⟨rfl, rfl⟩

/-- C8: decrypting any ciphertext that is no encryption under the bound key —
a token under a different key, bogus token bytes, or malformed transport
encoding — fails with a typed, catchable error rather than succeeding or
crashing; in particular an encryption under key A decrypted under key B with
A different from B always fails with `InvalidToken`. -/
theorem c8_decrypt_rejects_invalid (key keyA keyB : String) (nonce : Nat) (s : String)
    (c : Ciphertext) (hc : ∀ n p, c ≠ SecretManager.encrypt key n p) (hk : keyA ≠ keyB) :
    (∃ e, SecretManager.decrypt key c = Except.error e) ∧
    SecretManager.decrypt keyB (SecretManager.encrypt keyA nonce s) =
      Except.error CryptoErr.invalidToken := by
  constructor
  · cases c with
    | token k n p =>
      by_cases hkk : k = key
      · subst hkk
        exact absurd rfl (hc n p)
      · exact ⟨CryptoErr.invalidToken, by simp [SecretManager.decrypt, hkk]⟩
    | junk r => exact ⟨CryptoErr.invalidToken, rfl⟩
    | badTransport r => exact ⟨CryptoErr.transportError, rfl⟩
  · simp [SecretManager.encrypt, SecretManager.decrypt, hk]

/-- C8 witness: bogus token bytes under key K fail, and a token made under key
A fails to decrypt under key B. -/
theorem c8_decrypt_rejects_invalid_witness :
    (∃ e, SecretManager.decrypt "K" (Ciphertext.junk "zz") = Except.error e) ∧
    SecretManager.decrypt "B" (SecretManager.encrypt "A" 0 "msg") =
      Except.error CryptoErr.invalidToken :=
  c8_decrypt_rejects_invalid "K" "A" "B" 0 "msg" (Ciphertext.junk "zz")
    (fun n p h => Ciphertext.noConfusion h) (by decide)

/-- C9: a first `get_locator` touch of screen `s` stores the full
document-level parse — not the sub-mapping of `s` — under the cache key `s`,
whatever the element lookup then does; a subsequent `get_locators s` returns
that cached document unchecked, so it can succeed for a screen entirely
absent from the document. -/
theorem c9_first_touch_caches_document (m : LocatorManager) (s e : String) (d : Yaml)
    (h1 : dictGet s m.cache = none) (h2 : m.doc = Except.ok d) :
    ((getLocator m s e).2).cache = dictSet s d m.cache ∧
    (getLocators ((getLocator m s e).2) s).1 = Except.ok d := by
  have hcache : (getLocator m s e).2 = { m with cache := dictSet s d m.cache } := by
    simp [getLocator, h1, h2]
  refine ⟨by rw [hcache], ?_⟩
  rw [hcache]
  simp [getLocators, dictGet_dictSet_self]

/-- A document that does not contain the screen `ghost` at all. -/
def docW : Yaml := Yaml.map [("other_screen", Yaml.map [])]

/-- C9 witness: screen `ghost` is absent from the document, yet after one
`get_locator` touch, `get_locators "ghost"` succeeds and returns the whole
document. -/
theorem c9_first_touch_caches_document_witness :
    dictGet "ghost" [("other_screen", Yaml.map [])] = none ∧
    (getLocators ((getLocator ⟨Except.ok docW, []⟩ "ghost" "x").2) "ghost").1 =
      Except.ok docW :=
  ⟨rfl, (c9_first_touch_caches_document ⟨Except.ok docW, []⟩ "ghost" "x" docW rfl rfl).2⟩

/-- C10: any string leaf beginning with the four characters `ENC[` — with no
check of a closing bracket — is decrypted after stripping its first four and
its last character, the result of the decrypt call deciding the outcome. -/
theorem c10_marker_strip_suffix_unchecked (d : String → Except CryptoErr String) (s : String)
    (h : pyStartsWith s "ENC[" = true) :
    processSecrets d (Yaml.str s) =
      match d (encPayload s) with
      | Except.ok p => Except.ok (Yaml.str p)
      | Except.error e => Except.error e := by
  unfold processSecrets
  rw [if_pos h]

/-- C10 witness: the suffix-free string `ENC[abc` is still treated as an
encrypted scalar; under the identity decrypt its final character `c` is
dropped along with the four-character prefix, leaving `ab`. -/
theorem c10_marker_strip_suffix_unchecked_witness :
    pyStartsWith "ENC[abc" "ENC[" = true ∧
    processSecrets dId (Yaml.str "ENC[abc") = Except.ok (Yaml.str "ab") := by
  refine ⟨rfl, ?_⟩
  rw [c10_marker_strip_suffix_unchecked dId "ENC[abc" rfl]
  rfl
